import Mathlib

/-
  Verification development for the EDI tools extension
  (element validator, coordinate locator, delimiter normalization,
  version resolution and document scanner).

  Strings from the TypeScript source are modelled as `List Char`.
  JavaScript `charAt` returns the empty string out of range; that is
  modelled as `Option Char` (with `none` for the empty result).
  All numeric fields are parsed only after an all-digits test in the
  source, so `parseInt` is modelled as plain decimal evaluation.
-/

namespace EdiTools

/-- Convert a Lean string literal to the `List Char` representation used
throughout this development. -/
def str (s : String) : List Char := s.toList

/-- The apostrophe character (U+0027), the standard EDIFACT segment
terminator.  Kept as a named constant. -/
def aposChar : Char := Char.ofNat 39

/-- Sentinel U+0001 (SOH), the first temporary placeholder used by the
delimiter normalization commands. -/
def sohChar : Char := Char.ofNat 1

/-- Sentinel U+0002 (STX), the second temporary placeholder. -/
def stxChar : Char := Char.ofNat 2

/-- Sentinel U+0003 (ETX), third placeholder (EDIFACT normalization). -/
def etxChar : Char := Char.ofNat 3

/-- Sentinel U+0004 (EOT), fourth placeholder (EDIFACT normalization). -/
def eotChar : Char := Char.ofNat 4

/-- JavaScript whitespace as used by `String.prototype.trim`; the common
members are enumerated (space, tab, line feed, carriage return, vertical
tab, form feed, no-break space, BOM).  The claims under study only ever
involve ASCII space. -/
def isJsWs (c : Char) : Bool :=
  c = ' ' || c = '\t' || c = '\n' || c = '\r' ||
  c = Char.ofNat 11 || c = Char.ofNat 12 || c = Char.ofNat 160 || c = Char.ofNat 0xFEFF

/-- The regular expression test for one or more ASCII digits anchored at
both ends, i.e. the JavaScript test `/^\d+$/.test(value)`.  Note that the
empty string fails this test. -/
def digitsPlus (v : List Char) : Bool := !v.isEmpty && v.all Char.isDigit

/-- JavaScript `value.substring(a, b)` for `a ≤ b`. -/
def jsSub (v : List Char) (a b : Nat) : List Char := (v.drop a).take (b - a)

/-- Decimal value of a digit string; models `parseInt(s, 10)` in the
positions where the source has already established that `s` is all
digits. -/
def digitsToNat (l : List Char) : Nat := l.foldl (fun acc c => 10 * acc + (c.toNat - 48)) 0

/-- `parseInt(value.substring(a, b), 10)` on all-digit input. -/
def numAt (v : List Char) (a b : Nat) : Nat := digitsToNat (jsSub v a b)

/-- ASCII lowering, modelling `String.prototype.toLowerCase` on the ASCII
code values that appear in EDI schemata. -/
def toLowerL (v : List Char) : List Char := v.map Char.toLower

/-- Decimal rendering of a natural number, as JavaScript string
interpolation renders the nonnegative integers in the messages. -/
def natStr (n : Nat) : List Char := Nat.toDigits 10 n

/-- `p.isPrefixOf l`, i.e. JavaScript `l.startsWith(p)`. -/
def listStartsWith (p l : List Char) : Bool := List.isPrefixOf p l

/-- JavaScript `charAt`: the character at an index, `none` when the index
is out of range (where JavaScript yields the empty string). -/
def charAt (t : List Char) (i : Nat) : Option Char := t.get? i

/- ## Validation data model (src/README.md, validators module) -/

/-- The `errorType` discriminator of a validation result. -/
inductive ErrType where
  | length
  | dataType
  | invalidCode
deriving DecidableEq

/-- The `severity` field of a validation result. -/
inductive Severity where
  | error
  | warning
deriving DecidableEq

/-- `ValidationResult` from the validators module. -/
structure ValidationResult where
  isValid : Bool
  errorType : Option ErrType
  message : List Char
  severity : Severity
deriving DecidableEq

/-- `{ code, description }` entries of a code list. -/
structure CodeEntry where
  code : List Char
  description : List Char
deriving DecidableEq

/-- `ElementSchema` from the validators module.  A missing `codes` field
is identified with the empty list (the source guards with
`schema.codes && schema.codes.length > 0`). -/
structure ElementSchema where
  dataType : List Char
  minLength : Nat
  maxLength : Nat
  codes : List CodeEntry
deriving DecidableEq

/-- The literal `{ isValid: true, message: ..., severity: ... }` value
returned on every successful path. -/
def validOk : ValidationResult := ⟨true, none, [], Severity.warning⟩

/-- A failing result of kind `length`. -/
def lengthErr (msg : List Char) : ValidationResult := ⟨false, some ErrType.length, msg, Severity.error⟩

/-- A failing result of kind `dataType`. -/
def dataTypeErr (msg : List Char) : ValidationResult := ⟨false, some ErrType.dataType, msg, Severity.error⟩

/-- A failing result of kind `invalidCode`. -/
def codeErr (msg : List Char) : ValidationResult := ⟨false, some ErrType.invalidCode, msg, Severity.error⟩

/- ## validateLength (src/README.md lines 144-166) -/

/-- `validateLength`: min bound applies only when positive, then max bound
only when positive. -/
def validateLength (value : List Char) (schema : ElementSchema) : ValidationResult :=
  if 0 < schema.minLength ∧ value.length < schema.minLength then
    lengthErr (str "Value too short: " ++ natStr value.length ++ str " chars (min: " ++ natStr schema.minLength ++ str ")")
  else if 0 < schema.maxLength ∧ value.length > schema.maxLength then
    lengthErr (str "Value too long: " ++ natStr value.length ++ str " chars (max: " ++ natStr schema.maxLength ++ str ")")
  else validOk

/- ## validateDate (src/README.md lines 237-305) -/

/-- The Gregorian leap-year rule used by the validators:
`(year % 4 === 0 && year % 100 !== 0) || year % 400 === 0`. -/
def isLeapYear (y : Nat) : Bool := (y % 4 == 0 && y % 100 != 0) || y % 400 == 0

/-- The `daysInMonth` array after its conditional February update; the
source builds `[31, 28, ...]` and sets index 1 to 29 on leap years, then
reads index `month - 1`. -/
def daysInMonthOf (year month : Nat) : Nat :=
  List.getD [31, if isLeapYear year then 29 else 28, 31, 30, 31, 30, 31, 31, 30, 31, 30, 31] (month - 1) 0

/-- The year/month/day field checks shared verbatim by `validateDate`;
factored here because the body is reused (duplicated in the source) by
`validateDateWithFormat`. -/
def dateFieldCheck (year month day : Nat) : ValidationResult :=
  if month < 1 ∨ month > 12 then dataTypeErr (str "Invalid month: " ++ natStr month)
  else if day < 1 ∨ day > 31 then dataTypeErr (str "Invalid day: " ++ natStr day)
  else if day > daysInMonthOf year month then
    dataTypeErr (str "Invalid day " ++ natStr day ++ str " for month " ++ natStr month)
  else validOk

/-- `validateDate`: length 6 or 8, all digits, then field checks with the
pivot-at-50 two-digit-year rule for length 6. -/
def validateDate (value : List Char) : ValidationResult :=
  if ¬(value.length = 6 ∨ value.length = 8) then
    dataTypeErr (str "Invalid date length: " ++ natStr value.length ++ str " (expected 6 or 8)")
  else if !digitsPlus value then
    dataTypeErr (str "Invalid date: contains non-numeric characters")
  else
    let ymd : Nat × Nat × Nat :=
      if value.length = 8 then (numAt value 0 4, numAt value 4 6, numAt value 6 8)
      else
        let yy := numAt value 0 2
        (if yy < 50 then 2000 + yy else 1900 + yy, numAt value 2 4, numAt value 4 6)
    dateFieldCheck ymd.1 ymd.2.1 ymd.2.2

/- ## validateTime (src/README.md lines 310-364) -/

/-- `validateTime`: length at least 4, all digits, hour and minute checks,
second check only when length is at least 6.  `parseInt` of a digit
substring is nonnegative, so only the upper-bound comparisons of the
source remain. -/
def validateTime (value : List Char) : ValidationResult :=
  if value.length < 4 then
    dataTypeErr (str "Invalid time length: " ++ natStr value.length ++ str " (minimum 4)")
  else if !digitsPlus value then
    dataTypeErr (str "Invalid time: contains non-numeric characters")
  else if numAt value 0 2 > 23 then
    dataTypeErr (str "Invalid hour: " ++ natStr (numAt value 0 2))
  else if numAt value 2 4 > 59 then
    dataTypeErr (str "Invalid minutes: " ++ natStr (numAt value 2 4))
  else if value.length ≥ 6 ∧ numAt value 4 6 > 59 then
    dataTypeErr (str "Invalid seconds: " ++ natStr (numAt value 4 6))
  else validOk

/- ## validateDataType (src/README.md lines 171-232) -/

/-- The test `/^-?\d+$/.test(value)`: optional leading minus, then one or
more digits. -/
def jsIntLike (v : List Char) : Bool :=
  match v with
  | '-' :: rest => digitsPlus rest
  | _ => digitsPlus v

/-- The test `/^-?\d*\.?\d+$/.test(value)`.  After the optional minus the
body must be a nonempty run of digits with at most one dot whose last
character is a digit; this is exactly the language of `\d*\.?\d+`. -/
def jsDecimalLike (v : List Char) : Bool :=
  let body := match v with
    | '-' :: rest => rest
    | _ => v
  !body.isEmpty && body.all (fun c => c.isDigit || c = '.') &&
    decide (body.count '.' ≤ 1) &&
    (match body.getLast? with
     | some c => c.isDigit
     | none => false)

/-- `validateDataType`: dispatch on the declared type tag; `AN`, `ID`, `B`
and unrecognized tags perform no check. -/
def validateDataType (value : List Char) (dataType : List Char) : ValidationResult :=
  if dataType = str "AN" then validOk
  else if dataType = str "N0" then
    if !jsIntLike value then dataTypeErr (str "Expected integer, found non-numeric characters")
    else validOk
  else if dataType ∈ [str "N1", str "N2", str "N3", str "N4", str "N5", str "N6", str "N7", str "N8", str "N9"] then
    if !jsIntLike value then
      dataTypeErr (str "Expected numeric (" ++ dataType ++ str "), found non-numeric characters")
    else validOk
  else if dataType = str "R" then
    if !jsDecimalLike value then dataTypeErr (str "Expected decimal number, found invalid format")
    else validOk
  else if dataType = str "DT" then
    if !(validateDate value).isValid then validateDate value else validOk
  else if dataType = str "TM" then
    if !(validateTime value).isValid then validateTime value else validOk
  else validOk

/- ## validateCode (src/README.md lines 369-396) -/

/-- The filter predicate of the suggestion computation: lowercased code
starts with the lowercased first character of the value (an empty value
yields the empty prefix, which always matches, as `charAt(0)` of the
empty string is the empty string), or the lowercased code contains the
lowercased value. -/
def suggestionMatch (value : List Char) (c : CodeEntry) : Bool :=
  listStartsWith ((toLowerL value).take 1) (toLowerL c.code) ||
  decide (List.IsInfix (toLowerL value) (toLowerL c.code))

/-- The suggestion list: filter in schema order, keep the first 3, project
the codes. -/
def codeSuggestions (value : List Char) (codes : List CodeEntry) : List (List Char) :=
  ((codes.filter (suggestionMatch value)).take 3).map CodeEntry.code

/-- `validateCode`: exact (case-sensitive) membership; on failure an
`invalidCode` result whose message embeds the suggestions. -/
def validateCode (value : List Char) (codes : List CodeEntry) : ValidationResult :=
  if codes.any (fun c => decide (c.code = value)) then validOk
  else
    let suggestions := codeSuggestions value codes
    let base := str "Invalid code \"" ++ value ++ str "\""
    codeErr (if suggestions.isEmpty then base
             else base ++ str " (similar: " ++ List.intercalate (str ", ") suggestions ++ str ")")

/- ## validateElement (src/README.md lines 117-139) -/

/-- `validateElement`: empty or whitespace-only values are valid at once;
otherwise code list (when nonempty), then length, then data type, each
failing check returning immediately. -/
def validateElement (value : List Char) (schema : ElementSchema) : ValidationResult :=
  if value.all isJsWs then ⟨true, none, [], Severity.warning⟩
  else if !schema.codes.isEmpty && !(validateCode value schema.codes).isValid then
    validateCode value schema.codes
  else if !(validateLength value schema).isValid then validateLength value schema
  else if !(validateDataType value schema.dataType).isValid then validateDataType value schema.dataType
  else validOk

/- ## validateDateWithFormat (src/README.md lines 402-587) -/

/-- The `pattern` discriminator of the format-qualifier table. -/
inductive DtPattern where
  | date
  | datetime
  | time
deriving DecidableEq

/-- One row of the fixed format-qualifier table. -/
structure DtFormat where
  len : Nat
  pattern : DtPattern
  description : List Char
deriving DecidableEq

/-- The fixed `formatMap` of `validateDateWithFormat` (EDIFACT code list
2379 subset). -/
def formatMap (q : List Char) : Option DtFormat :=
  if q = str "102" then some ⟨8, DtPattern.date, str "CCYYMMDD"⟩
  else if q = str "203" then some ⟨12, DtPattern.datetime, str "CCYYMMDDHHMM"⟩
  else if q = str "204" then some ⟨14, DtPattern.datetime, str "CCYYMMDDHHMMSS"⟩
  else if q = str "602" then some ⟨6, DtPattern.date, str "YYMMDD"⟩
  else if q = str "616" then some ⟨8, DtPattern.datetime, str "YYMMDDHHMM"⟩
  else if q = str "718" then some ⟨10, DtPattern.datetime, str "YYMMDDHHMMSS"⟩
  else if q = str "201" then some ⟨10, DtPattern.datetime, str "YYMMDDHHMM"⟩
  else if q = str "303" then some ⟨4, DtPattern.time, str "HHMM"⟩
  else if q = str "304" then some ⟨6, DtPattern.time, str "HHMMSS"⟩
  else none

/-- The date portion of `validateDateWithFormat` after the year, month and
day fields have been extracted: month check, day check, days-in-month
check, then the guarded hour, minute and second checks of the time
portion when the pattern is `datetime` and the value extends past the
date fields. -/
def dwfDatePart (value : List Char) (year month day dateLength : Nat) (pattern : DtPattern) : ValidationResult :=
  if month < 1 ∨ month > 12 then dataTypeErr (str "Invalid month: " ++ natStr month)
  else if day < 1 ∨ day > 31 then dataTypeErr (str "Invalid day: " ++ natStr day)
  else if day > daysInMonthOf year month then
    dataTypeErr (str "Invalid day " ++ natStr day ++ str " for month " ++ natStr month)
  else if pattern = DtPattern.datetime ∧ value.length > dateLength then
    if value.length ≥ dateLength + 2 ∧ numAt value dateLength (dateLength + 2) > 23 then
      dataTypeErr (str "Invalid hour: " ++ natStr (numAt value dateLength (dateLength + 2)))
    else if value.length ≥ dateLength + 4 ∧ numAt value (dateLength + 2) (dateLength + 4) > 59 then
      dataTypeErr (str "Invalid minutes: " ++ natStr (numAt value (dateLength + 2) (dateLength + 4)))
    else if value.length ≥ dateLength + 6 ∧ numAt value (dateLength + 4) (dateLength + 6) > 59 then
      dataTypeErr (str "Invalid seconds: " ++ natStr (numAt value (dateLength + 4) (dateLength + 6)))
    else validOk
  else validOk

/-- `validateDateWithFormat`: unknown qualifiers degrade to the all-digits
test; known qualifiers enforce the exact table length, the all-digits
test, and then the date or time field checks read off the description
prefix. -/
def validateDateWithFormat (value : List Char) (formatCode : List Char) : ValidationResult :=
  match formatMap formatCode with
  | none =>
    if !digitsPlus value then dataTypeErr (str "Date/time value contains non-numeric characters")
    else validOk
  | some format =>
    if value.length ≠ format.len then
      dataTypeErr (str "Invalid " ++ format.description ++ str " length: " ++ natStr value.length ++
        str " (expected " ++ natStr format.len ++ str ")")
    else if !digitsPlus value then dataTypeErr (str "Date/time contains non-numeric characters")
    else
      match format.pattern with
      | DtPattern.time =>
        if numAt value 0 2 > 23 then dataTypeErr (str "Invalid hour: " ++ natStr (numAt value 0 2))
        else if value.length ≥ 4 ∧ numAt value 2 4 > 59 then
          dataTypeErr (str "Invalid minutes: " ++ natStr (numAt value 2 4))
        else if value.length ≥ 6 ∧ numAt value 4 6 > 59 then
          dataTypeErr (str "Invalid seconds: " ++ natStr (numAt value 4 6))
        else validOk
      | DtPattern.date =>
        if listStartsWith (str "CCYY") format.description then
          dwfDatePart value (numAt value 0 4) (numAt value 4 6) (numAt value 6 8) 8 format.pattern
        else if listStartsWith (str "YY") format.description then
          let yy := numAt value 0 2
          dwfDatePart value (if yy < 50 then 2000 + yy else 1900 + yy) (numAt value 2 4) (numAt value 4 6) 6 format.pattern
        else validOk
      | DtPattern.datetime =>
        if listStartsWith (str "CCYY") format.description then
          dwfDatePart value (numAt value 0 4) (numAt value 4 6) (numAt value 6 8) 8 format.pattern
        else if listStartsWith (str "YY") format.description then
          let yy := numAt value 0 2
          dwfDatePart value (if yy < 50 then 2000 + yy else 1900 + yy) (numAt value 2 4) (numAt value 4 6) 6 format.pattern
        else validOk

/- ## Spec-side date predicate (for the refinement comparison of the date
validator claim) -/

/-- Modelled from the claim wording, for comparison with `validateDate`:
a date is accepted exactly when it has length 6 (YYMMDD) or 8 (CCYYMMDD),
is all digits, its two-digit year pivots at 50, its month lies in 1..12,
and its day lies in 1..31 and does not exceed the days-in-month table
under the Gregorian leap-year rule. -/
def dateSpecValid (v : List Char) : Bool :=
  (decide (v.length = 6) || decide (v.length = 8)) &&
  v.all Char.isDigit &&
  (let year := if v.length = 8 then numAt v 0 4
               else (let yy := numAt v 0 2; if yy < 50 then 2000 + yy else 1900 + yy)
   let month := if v.length = 8 then numAt v 4 6 else numAt v 2 4
   let day := if v.length = 8 then numAt v 6 8 else numAt v 4 6
   decide (1 ≤ month) && decide (month ≤ 12) && decide (1 ≤ day) && decide (day ≤ 31) &&
   decide (day ≤ daysInMonthOf year month))

/- ## Split and join (JavaScript String.prototype.split by a single
character, and its inverse) -/

/-- Prepend one character onto the first piece of a split result. -/
def consHead (c : Char) : List (List Char) → List (List Char)
  | t :: ts => (c :: t) :: ts
  | [] => [[c]]

/-- JavaScript `text.split(d)` for a one-character separator `d`. -/
def splitOnChar (d : Char) : List Char → List (List Char)
  | [] => [[]]
  | c :: cs => if c = d then [] :: splitOnChar d cs else consHead c (splitOnChar d cs)

/-- Joining a list of pieces with a one-character separator; the inverse
of `splitOnChar`. -/
def joinWith (d : Char) : List (List Char) → List Char
  | [] => []
  | [x] => x
  | x :: y :: ys => x ++ d :: joinWith d (y :: ys)

/- ## EdiHoverProvider.getElementPosition (src/unnamed/part_003 lines
429-452) -/

/-- The scanning loop of `getElementPosition`: walk the parts after the
segment code, advancing one position for the consumed delimiter, and
return the 1-based index of the first part whose inclusive range
`[currentPos, elementEnd]` contains the cursor. -/
def gepLoop (cursor : Nat) : List (List Char) → Nat → Nat → Option Nat
  | [], _, _ => none
  | p :: rest, i, pos =>
    let start := pos + 1
    let endPos := start + p.length
    if start ≤ cursor ∧ cursor ≤ endPos then some i
    else gepLoop cursor rest (i + 1) endPos

/-- `getElementPosition`: split by the element delimiter; with fewer than
two parts there is no element; otherwise run the walk starting after the
segment code. -/
def getElementPosition (lineText : List Char) (cursorPosition : Nat) (segmentCode : List Char) (delimiter : Char) : Option Nat :=
  let parts := splitOnChar delimiter lineText
  if parts.length < 2 then none
  else gepLoop cursorPosition (parts.drop 1) 1 segmentCode.length

/-- The position one past the last character of the piece with the given
index (0-based) in a join of the pieces by a one-character delimiter;
when a further piece follows, this is exactly the index of the delimiter
separating the two pieces. -/
def endAfter : List (List Char) → Nat → Nat
  | [], _ => 0
  | x :: _, 0 => x.length
  | x :: ps, i + 1 => x.length + 1 + endAfter ps i

/-- The cumulative end position computed by the walk of `gepLoop`: the
value of `elementEnd` for the part with the given 0-based index among the
walked parts, starting from the given position. -/
def partEnd (pos : Nat) : List (List Char) → Nat → Nat
  | [], _ => pos
  | p :: _, 0 => pos + 1 + p.length
  | p :: rest, k + 1 => partEnd (pos + 1 + p.length) rest k

/- ## Version resolution (src/unnamed/part_000 lines 959-978 and
src/unnamed/part_003 lines 145-198) -/

/-- The ordered X12 fallback version list shared by the scanner and the
hover provider. -/
def x12FallbackVersions : List (List Char) :=
  [str "004010", str "005010", str "008010", str "003070", str "003060", str "003010", str "007020"]

/-- The ordered EDIFACT fallback version list. -/
def edifactFallbackVersions : List (List Char) :=
  [str "d96a", str "d01b", str "d03a", str "d98b", str "d21a"]

/-- The fallback search of `validateDocument`: keep the detected version
when its schema directory exists; otherwise take the first fallback whose
directory exists; when none exists the loop never assigns and the
detected version remains.  Directory existence is supplied as an
oracle. -/
def validateDocumentResolveVersion (dirExists : List Char → Bool) (fallbacks : List (List Char)) (detected : List Char) : List Char :=
  if dirExists detected then detected
  else
    match fallbacks.find? dirExists with
    | some fb => fb
    | none => detected

/-- The version choice of `EdiHoverProvider.getDocumentVersion`: with no
detected version the first fallback is used; with a detected version it
is lowercased, and replaced by the first fallback exactly when that
version is not already loaded and its schema directory is missing (no
further fallback is ever consulted, and the existence of the first
fallback is not checked).  Directory existence and loadedness are
supplied as oracles on the version string. -/
def getDocumentVersionResolve (dirExists : List Char → Bool) (loaded : List Char → Bool)
    (fallbacks : List (List Char)) (detected : Option (List Char)) : List Char :=
  match detected with
  | none => fallbacks.headD []
  | some dv =>
    let version := toLowerL dv
    if !loaded version && !dirExists version then fallbacks.headD []
    else version

/- ## Document scanner delimiter (src/unnamed/part_000 lines 1008 and
1031) -/

/-- The hard-coded element delimiter of `validateDocument`:
`const delimiter = isEdifact ? '+' : '*'`. -/
def scannerElementDelimiter (isEdifact : Bool) : Char :=
  if isEdifact then '+' else '*'

/-- The per-line element parts of `validateDocument`:
`const parts = lineText.split(delimiter)`.  No declared delimiter is
consulted. -/
def scannerLineParts (isEdifact : Bool) (lineText : List Char) : List (List Char) :=
  splitOnChar (scannerElementDelimiter isEdifact) lineText

/- ## normalizeDelimiters (src/unnamed/part_000 lines 124-186) -/

/-- One global single-character replacement pass, i.e. JavaScript
`text.replace(new RegExp(escapeRegExp(d), "g"), r)`.  When the pattern
character is absent (JavaScript `charAt` out of range yields the empty
string and the empty pattern matches at every boundary), the replacement
is inserted before every character and at the end. -/
def replaceChar : Option Char → Char → List Char → List Char
  | some c, r, l => l.map (fun x => if x = c then r else x)
  | none, r, l => r :: l.foldr (fun x acc => x :: r :: acc) []

/-- `hasEnvelope`: the first line starts with ISA or UNB. -/
def hasEnvelope (t : List Char) : Bool :=
  let firstLine := t.takeWhile (fun c => c ≠ '\n')
  listStartsWith (str "ISA") firstLine || listStartsWith (str "UNB") firstLine

/-- The element delimiter read by `normalizeDelimiters`:
`const elemDelim = text.charAt(103)` (src/unnamed/part_000 line 140). -/
def normalizeDelimitersElemDelim (t : List Char) : Option Char := charAt t 103

/-- The segment delimiter read by `normalizeDelimiters`:
`const segDelim = text.charAt(105)` (src/unnamed/part_000 line 141). -/
def normalizeDelimitersSegDelim (t : List Char) : Option Char := charAt t 105

/-- The element delimiter read by `updateX12Ids`:
`const elemDelim = text.charAt(3)` (src/unnamed/part_000 line 559). -/
def updateX12IdsElemDelim (t : List Char) : Option Char := charAt t 3

/-- The already-normalized short-circuit condition of
`normalizeDelimiters`. -/
def noopX12 (t : List Char) : Bool :=
  normalizeDelimitersElemDelim t = some '*' && normalizeDelimitersSegDelim t = some '~'

/-- The text transformation of the `normalizeDelimiters` command: no edit
without an envelope; no edit when already normalized; otherwise the
two-phase rewrite through the U+0001 and U+0002 sentinels. -/
def normalizeDelimiters (t : List Char) : List Char :=
  if !hasEnvelope t then t
  else
    let elemDelim := normalizeDelimitersElemDelim t
    let segDelim := normalizeDelimitersSegDelim t
    if elemDelim = some '*' ∧ segDelim = some '~' then t
    else
      let u1 := if elemDelim ≠ some '*' then replaceChar elemDelim sohChar t
                else replaceChar (some '*') sohChar t
      let u2 := if segDelim ≠ some '~' then replaceChar segDelim stxChar u1
                else replaceChar (some '~') stxChar u1
      let u3 := replaceChar (some sohChar) '*' u2
      replaceChar (some stxChar) '~' u3

/-- One single-character replacement applied to one character. -/
def x12Step (a b c : Char) : Char := if c = a then b else c

/-- The per-character effect of the four replacement passes of
`normalizeDelimiters` when both delimiter reads succeed: element
character to the first sentinel, segment character to the second
sentinel, then the sentinels to the standard asterisk and tilde. -/
def x12Map (e s c : Char) : Char :=
  x12Step stxChar '~' (x12Step sohChar '*' (x12Step s stxChar (x12Step e sohChar c)))

/- ## normalizeEdifactDelimiters (src/unnamed/part_000 lines 349-471) -/

/-- The standard UNA service-string advice written by the normalization:
the nine characters UNA, colon, plus, dot, question mark, space,
apostrophe. -/
def unaHeader : List Char := str "UNA:+.? " ++ [aposChar]

/-- The element delimiter inferred from a UNB envelope by
`text.match(/^UNB(.)/)`: the character at index 3 when present and not a
newline (the dot of the pattern does not match a newline), else the
default plus sign. -/
def unbElementDelim (t : List Char) : Char :=
  match charAt t 3 with
  | some c => if c = '\n' then '+' else c
  | none => '+'

/-- The component delimiter inferred by `text.match(/^UNB[^:]*(.)/)`.
The greedy run of non-colon characters stops at the first colon after
index 2, which the final dot then captures; when the text has no colon
there, backtracking makes the dot capture the last character that is not
a newline; with no capture the default colon remains. -/
def unbComponentDelim (t : List Char) : Char :=
  let rest := t.drop 3
  if rest.contains ':' then ':'
  else
    match rest.reverse.find? (fun c => c ≠ '\n') with
    | some c => c
    | none => ':'

/-- The segment delimiter inferred by `text.match(/^UNB[^\n]*?(.)\n/)`,
with fallback `text.match(/^UNB[^']*?(')/)`: the character immediately
before the first newline after index 2 (when that newline is not at
index 3 itself); in every other case the captured or default character
is the apostrophe. -/
def unbSegmentDelim (t : List Char) : Char :=
  let rest := t.drop 3
  match rest.findIdx? (fun c => c = '\n') with
  | some (i + 1) => rest.getD i aposChar
  | _ => aposChar

/-- The delimiters read by `normalizeEdifactDelimiters`, as
(component, element, release, segment): from the fixed UNA offsets 3, 4,
6, 8 when the text starts with UNA; inferred from the UNB structure when
it starts with UNB (release stays at its default); `none` when neither
envelope opens the text. -/
def edifactDelimsOf (t : List Char) : Option (Option Char × Option Char × Option Char × Option Char) :=
  if listStartsWith (str "UNA") t then
    some (charAt t 3, charAt t 4, charAt t 6, charAt t 8)
  else if listStartsWith (str "UNB") t then
    some (some (unbComponentDelim t), some (unbElementDelim t), some '?', some (unbSegmentDelim t))
  else none

/-- The already-normalized short-circuit condition of
`normalizeEdifactDelimiters`. -/
def edifactNoop (t : List Char) : Bool :=
  match edifactDelimsOf t with
  | some (cd, ed, rc, sd) =>
    cd = some ':' && ed = some '+' && sd = some aposChar && rc = some '?'
  | none => false

/-- The text transformation of the `normalizeEdifactDelimiters` command:
no edit without a UNA or UNB envelope; no edit when the four delimiters
are already standard; otherwise the four-sentinel two-phase rewrite,
followed by rewriting the UNA header (replacing the first nine characters
after a UNA, prepending a fresh header line after a UNB). -/
def normalizeEdifactDelimiters (t : List Char) : List Char :=
  match edifactDelimsOf t with
  | none => t
  | some (cd, ed, rc, sd) =>
    if cd = some ':' ∧ ed = some '+' ∧ sd = some aposChar ∧ rc = some '?' then t
    else
      let u1 := if cd ≠ some ':' then replaceChar cd sohChar t else replaceChar (some ':') sohChar t
      let u2 := if ed ≠ some '+' then replaceChar ed stxChar u1 else replaceChar (some '+') stxChar u1
      let u3 := if sd ≠ some aposChar then replaceChar sd etxChar u2 else replaceChar (some aposChar) etxChar u2
      let u4 := if rc ≠ some '?' then replaceChar rc eotChar u3 else replaceChar (some '?') eotChar u3
      let u5 := replaceChar (some sohChar) ':' u4
      let u6 := replaceChar (some stxChar) '+' u5
      let u7 := replaceChar (some etxChar) aposChar u6
      let u8 := replaceChar (some eotChar) '?' u7
      if listStartsWith (str "UNA") t then unaHeader ++ u8.drop 9
      else unaHeader ++ '\n' :: u8

/- ## Helper lemmas -/

theorem validOk_isValid : validOk.isValid = true := rfl

theorem lengthErr_isValid (m : List Char) : (lengthErr m).isValid = false := rfl

theorem dataTypeErr_isValid (m : List Char) : (dataTypeErr m).isValid = false := rfl

theorem codeErr_isValid (m : List Char) : (codeErr m).isValid = false := rfl

/-- Every valid result of `validateDataType` is the shared literal
`validOk`. -/
theorem validateDataType_valid_eq (v d : List Char) (h : (validateDataType v d).isValid = true) :
    validateDataType v d = validOk := by
  unfold validateDataType at *
  split_ifs at * <;> first
    | rfl
    | simp_all [dataTypeErr]
    | (rename_i hdt _; revert h; split <;> simp_all [validOk])

/- ## Claim C1 -/

/-- Claim C1: for every schema, `validateElement` is valid on empty or
whitespace-only values; on non-empty values the checks run in the order
code list (when nonempty), length, data type, the first failing check
returning its result, so a value failing both the code list and the data
type yields kind `invalidCode`, never `dataType`. -/
theorem validateElement_check_order (v : List Char) (s : ElementSchema) :
    (v.all isJsWs = true → (validateElement v s).isValid = true)
  ∧ (v.all isJsWs = false → s.codes ≠ [] → (validateCode v s.codes).isValid = false →
      validateElement v s = validateCode v s.codes)
  ∧ (v.all isJsWs = false → (s.codes = [] ∨ (validateCode v s.codes).isValid = true) →
      (validateLength v s).isValid = false → validateElement v s = validateLength v s)
  ∧ (v.all isJsWs = false → (s.codes = [] ∨ (validateCode v s.codes).isValid = true) →
      (validateLength v s).isValid = true → validateElement v s = validateDataType v s.dataType)
  ∧ (v.all isJsWs = false → s.codes ≠ [] → (validateCode v s.codes).isValid = false →
      (validateDataType v s.dataType).isValid = false →
      (validateElement v s).errorType = some ErrType.invalidCode ∧
      (validateElement v s).errorType ≠ some ErrType.dataType) := by
  refine ⟨?_, ?_, ?_, ?_, ?_⟩
  · intro hws
    simp [validateElement, hws]
  · intro hws hcodes hfail
    have hne : s.codes.isEmpty = false := by
      simpa [List.isEmpty_iff] using hcodes
    simp [validateElement, hws, hne, hfail]
  · intro hws hok hlen
    rcases hok with h | h
    · simp [validateElement, hws, h, hlen]
    · by_cases hne : s.codes.isEmpty <;> simp [validateElement, hws, hne, h, hlen]
  · intro hws hok hlen
    by_cases htype : (validateDataType v s.dataType).isValid
    · have := validateDataType_valid_eq v s.dataType htype
      rcases hok with h | h
      · simp [validateElement, hws, h, hlen, htype, this]
      · by_cases hne : s.codes.isEmpty <;>
          simp [validateElement, hws, hne, h, hlen, htype, this]
    · rcases hok with h | h
      · simp [validateElement, hws, h, hlen, htype]
      · by_cases hne : s.codes.isEmpty <;>
          simp [validateElement, hws, hne, h, hlen, htype]
  · intro hws hcodes hfail _
    have hne : s.codes.isEmpty = false := by
      simpa [List.isEmpty_iff] using hcodes
    have hres : validateElement v s = validateCode v s.codes := by
      simp [validateElement, hws, hne, hfail]
    rw [hres]
    unfold validateCode at hfail ⊢
    split_ifs at hfail ⊢ <;> simp_all [validOk, codeErr]

/-- Witness for claim C1 at a concrete input: the value XX against a
schema with code list 01 and numeric type fails the code list and the
data type, and the reported kind is `invalidCode`. -/
theorem validateElement_check_order_witness :
    (validateElement (str "XX") ⟨str "N0", 0, 0, [⟨str "01", []⟩]⟩).errorType = some ErrType.invalidCode ∧
    (validateElement (str "XX") ⟨str "N0", 0, 0, [⟨str "01", []⟩]⟩).errorType ≠ some ErrType.dataType :=
  (validateElement_check_order (str "XX") ⟨str "N0", 0, 0, [⟨str "01", []⟩]⟩).2.2.2.2
    (by decide) (by decide) (by decide) (by decide)

/- ## Claim C2 -/

/-- Claim C2: for every non-empty value, the length check fails (with kind
`length`) exactly when the positive minimum exceeds the length or the
positive maximum is exceeded; zero bounds impose no limit, so with both
bounds zero no value fails. -/
theorem validateLength_bounds (v : List Char) (s : ElementSchema) (hne : v.all isJsWs = false) :
    ((validateLength v s).isValid = false ↔
      (0 < s.minLength ∧ v.length < s.minLength) ∨ (0 < s.maxLength ∧ v.length > s.maxLength))
  ∧ ((validateLength v s).isValid = false → (validateLength v s).errorType = some ErrType.length)
  ∧ (s.minLength = 0 → s.maxLength = 0 → (validateLength v s).isValid = true) := by
  refine ⟨?_, ?_, ?_⟩
  · unfold validateLength
    split_ifs with h1 h2 <;> simp_all [lengthErr, validOk] <;> tauto
  · unfold validateLength
    split_ifs <;> simp [lengthErr, validOk]
  · intro hmin hmax
    unfold validateLength
    split_ifs <;> simp_all [validOk]

/-- Witness for claim C2: the two-character value AB under bounds 3..5
fails with the length kind, and under bounds 0..0 it passes. -/
theorem validateLength_bounds_witness :
    (validateLength (str "AB") ⟨str "AN", 3, 5, []⟩).isValid = false ∧
    (validateLength (str "AB") ⟨str "AN", 3, 5, []⟩).errorType = some ErrType.length ∧
    (validateLength (str "AB") ⟨str "AN", 0, 0, []⟩).isValid = true := by
  refine ⟨?_, ?_, ?_⟩
  · exact (validateLength_bounds (str "AB") ⟨str "AN", 3, 5, []⟩ (by decide)).1.mpr (by decide)
  · exact (validateLength_bounds (str "AB") ⟨str "AN", 3, 5, []⟩ (by decide)).2.1
      ((validateLength_bounds (str "AB") ⟨str "AN", 3, 5, []⟩ (by decide)).1.mpr (by decide))
  · exact (validateLength_bounds (str "AB") ⟨str "AN", 0, 0, []⟩ (by decide)).2.2 rfl rfl

/- ## Claim C5 -/

/-- Counterexample for claim C5: the suggestion list is a single in-order
filter pass with no reordering and no deduplication.  For the value X
against codes AXA and XB, the code AXA matches only as a substring while
XB matches the first character, yet AXA is listed first; for the value XZ
against a duplicated code X1 the duplicate survives. -/
theorem validateCode_suggestions_cex :
    codeSuggestions (str "X") [⟨str "AXA", []⟩, ⟨str "XB", []⟩] = [str "AXA", str "XB"]
  ∧ listStartsWith ((toLowerL (str "X")).take 1) (toLowerL (str "XB")) = true
  ∧ listStartsWith ((toLowerL (str "X")).take 1) (toLowerL (str "AXA")) = false
  ∧ codeSuggestions (str "XZ") [⟨str "X1", []⟩, ⟨str "X1", []⟩] = [str "X1", str "X1"]
  ∧ (validateCode (str "X") [⟨str "AXA", []⟩, ⟨str "XB", []⟩]).message
      = str "Invalid code \"X\" (similar: AXA, XB)" := by
  decide

/-- Claim C5 as amended: on a value that is not an exact member, the
result has kind `invalidCode` and the suggestions are the first at most 3
codes, in original schema order, whose entry matches the
first-character-prefix-or-substring predicate; no preference reordering
and no deduplication takes place. -/
theorem validateCode_suggestions_amended (v : List Char) (cs : List CodeEntry)
    (hmem : (cs.any (fun c => decide (c.code = v))) = false) :
    (validateCode v cs).errorType = some ErrType.invalidCode
  ∧ codeSuggestions v cs = ((cs.filter (suggestionMatch v)).map CodeEntry.code).take 3
  ∧ (codeSuggestions v cs).length ≤ 3
  ∧ ∀ code ∈ codeSuggestions v cs, ∃ e ∈ cs, e.code = code ∧ suggestionMatch v e = true := by
  refine ⟨?_, ?_, ?_, ?_⟩
  · simp [validateCode, hmem, codeErr]
  · simp [codeSuggestions, List.map_take]
  · simp only [codeSuggestions, List.length_map, List.length_take]
    exact Nat.min_le_left _ _
  · intro code hc
    simp only [codeSuggestions, List.mem_map] at hc
    obtain ⟨e, he, rfl⟩ := hc
    have he2 := List.mem_of_mem_take he
    rw [List.mem_filter] at he2
    exact ⟨e, he2.1, rfl, he2.2⟩

/-- Witness for the amended claim C5 at the concrete input of the spec
example: value 03 against codes 01 and 02. -/
theorem validateCode_suggestions_amended_witness :
    (validateCode (str "03") [⟨str "01", []⟩, ⟨str "02", []⟩]).errorType = some ErrType.invalidCode
  ∧ codeSuggestions (str "03") [⟨str "01", []⟩, ⟨str "02", []⟩]
      = (([⟨str "01", []⟩, ⟨str "02", []⟩].filter (suggestionMatch (str "03"))).map CodeEntry.code).take 3
  ∧ (codeSuggestions (str "03") [⟨str "01", []⟩, ⟨str "02", []⟩]).length ≤ 3 :=
  ⟨(validateCode_suggestions_amended (str "03") _ (by decide)).1,
   (validateCode_suggestions_amended (str "03") _ (by decide)).2.1,
   (validateCode_suggestions_amended (str "03") _ (by decide)).2.2.1⟩

/- ## Claim C3 -/

/-- The year, month and day range checks of `dateFieldCheck`, as a
proposition. -/
theorem dateFieldCheck_valid_iff (y m d : Nat) :
    (dateFieldCheck y m d).isValid = true ↔
      (1 ≤ m ∧ m ≤ 12 ∧ 1 ≤ d ∧ d ≤ 31 ∧ d ≤ daysInMonthOf y m) := by
  unfold dateFieldCheck
  split_ifs with h1 h2 h3 <;> simp [dataTypeErr, validOk] <;> omega

/-- Claim C3: `validateDate` accepts exactly the all-digit values of
length 6 or 8 whose (pivoted) year, month and day fields satisfy the
range and days-in-month checks with the Gregorian leap rule; in
particular 20240229 is valid while 20230229 and 19991301 fail with kind
`dataType`. -/
theorem validateDate_spec :
    (∀ v : List Char, ((validateDate v).isValid = true ↔ dateSpecValid v = true))
  ∧ (validateDate (str "20240229")).isValid = true
  ∧ (validateDate (str "20230229")).isValid = false
  ∧ (validateDate (str "20230229")).errorType = some ErrType.dataType
  ∧ (validateDate (str "19991301")).isValid = false
  ∧ (validateDate (str "19991301")).errorType = some ErrType.dataType := by
  refine ⟨?_, by decide, by decide, by decide, by decide, by decide⟩
  intro v
  by_cases h8 : v.length = 8
  · have hne : v.isEmpty = false := by
      have hv : v ≠ [] := by
        intro h
        rw [h] at h8
        simp at h8
      simpa [List.isEmpty_iff] using hv
    by_cases hd : v.all Char.isDigit
    · simp only [validateDate, dateSpecValid, digitsPlus, h8, hne, hd]
      norm_num
      rw [dateFieldCheck_valid_iff]
      tauto
    · simp [validateDate, dateSpecValid, digitsPlus, h8, hne, hd, dataTypeErr]
  · by_cases h6 : v.length = 6
    · have hne : v.isEmpty = false := by
        have hv : v ≠ [] := by
          intro h
          rw [h] at h6
          simp at h6
        simpa [List.isEmpty_iff] using hv
      by_cases hd : v.all Char.isDigit
      · simp only [validateDate, dateSpecValid, digitsPlus, h6, hne, hd]
        norm_num
        rw [dateFieldCheck_valid_iff]
        tauto
      · simp [validateDate, dateSpecValid, digitsPlus, h6, hne, hd, dataTypeErr]
    · simp [validateDate, dateSpecValid, h6, h8, dataTypeErr]

/- ## Claim C4 helper lemmas -/

theorem all_take (p : Char → Bool) (v : List Char) (n : Nat) (h : v.all p = true) :
    (v.take n).all p = true := by
  rw [List.all_eq_true] at h ⊢
  exact fun c hc => h c (List.mem_of_mem_take hc)

theorem all_drop (p : Char → Bool) (v : List Char) (n : Nat) (h : v.all p = true) :
    (v.drop n).all p = true := by
  rw [List.all_eq_true] at h ⊢
  exact fun c hc => h c (List.mem_of_mem_drop hc)

theorem jsSub_take (v : List Char) (n a b : Nat) (h : b ≤ n) :
    jsSub (v.take n) a b = jsSub v a b := by
  unfold jsSub
  rw [List.drop_take, List.take_take]
  congr 1
  omega

theorem jsSub_drop (v : List Char) (n a b : Nat) :
    jsSub (v.drop n) a b = jsSub v (n + a) (n + b) := by
  unfold jsSub
  rw [List.drop_drop]
  congr 1
  omega

theorem numAt_take (v : List Char) (n a b : Nat) (h : b ≤ n) :
    numAt (v.take n) a b = numAt v a b := by
  unfold numAt
  rw [jsSub_take v n a b h]

theorem numAt_drop (v : List Char) (n a b : Nat) :
    numAt (v.drop n) a b = numAt v (n + a) (n + b) := by
  unfold numAt
  rw [jsSub_drop]

theorem isEmpty_false_of_length (v : List Char) (n : Nat) (h : v.length = n) (hn : n ≠ 0) :
    v.isEmpty = false := by
  have hv : v ≠ [] := by
    intro hnil
    apply hn
    rw [hnil] at h
    simpa using h.symm
  simpa [List.isEmpty_iff] using hv

/-- `validateDate` on all-digit input of length 8, as a proposition. -/
theorem validateDate_eight_iff (v : List Char) (h8 : v.length = 8) (hd : v.all Char.isDigit = true) :
    ((validateDate v).isValid = true ↔
      (1 ≤ numAt v 4 6 ∧ numAt v 4 6 ≤ 12 ∧ 1 ≤ numAt v 6 8 ∧ numAt v 6 8 ≤ 31 ∧
       numAt v 6 8 ≤ daysInMonthOf (numAt v 0 4) (numAt v 4 6))) := by
  have hne : v.isEmpty = false := isEmpty_false_of_length v 8 h8 (by omega)
  simp only [validateDate, digitsPlus, h8, hne, hd]
  norm_num
  rw [dateFieldCheck_valid_iff]

/-- `validateDate` on all-digit input of length 6, as a proposition
(with the pivot-at-50 year). -/
theorem validateDate_six_iff (v : List Char) (h6 : v.length = 6) (hd : v.all Char.isDigit = true) :
    ((validateDate v).isValid = true ↔
      (1 ≤ numAt v 2 4 ∧ numAt v 2 4 ≤ 12 ∧ 1 ≤ numAt v 4 6 ∧ numAt v 4 6 ≤ 31 ∧
       numAt v 4 6 ≤ daysInMonthOf
         (if numAt v 0 2 < 50 then 2000 + numAt v 0 2 else 1900 + numAt v 0 2) (numAt v 2 4))) := by
  have hne : v.isEmpty = false := isEmpty_false_of_length v 6 h6 (by omega)
  simp only [validateDate, digitsPlus, h6, hne, hd]
  norm_num
  rw [dateFieldCheck_valid_iff]

/-- `validateTime` on all-digit input of length at least 4, as a
proposition. -/
theorem validateTime_valid_iff (v : List Char) (h4 : 4 ≤ v.length) (hd : v.all Char.isDigit = true) :
    ((validateTime v).isValid = true ↔
      (numAt v 0 2 ≤ 23 ∧ numAt v 2 4 ≤ 59 ∧ (6 ≤ v.length → numAt v 4 6 ≤ 59))) := by
  have hne : v.isEmpty = false := isEmpty_false_of_length v v.length rfl (by omega)
  unfold validateTime
  simp only [digitsPlus, hne, hd]
  split_ifs <;> simp_all [dataTypeErr, validOk] <;> omega

/-- The date branch of `dwfDatePart`, as a proposition. -/
theorem dwfDatePart_date_iff (v : List Char) (y m d L : Nat) :
    ((dwfDatePart v y m d L DtPattern.date).isValid = true ↔
      (1 ≤ m ∧ m ≤ 12 ∧ 1 ≤ d ∧ d ≤ 31 ∧ d ≤ daysInMonthOf y m)) := by
  unfold dwfDatePart
  split_ifs <;> simp_all [dataTypeErr, validOk] <;> omega

/-- The datetime branch of `dwfDatePart`, as a proposition: the date
range checks plus the three guarded time checks. -/
theorem dwfDatePart_datetime_iff (v : List Char) (y m d L : Nat) :
    ((dwfDatePart v y m d L DtPattern.datetime).isValid = true ↔
      (1 ≤ m ∧ m ≤ 12 ∧ 1 ≤ d ∧ d ≤ 31 ∧ d ≤ daysInMonthOf y m ∧
       (L < v.length →
         ((L + 2 ≤ v.length → numAt v L (L + 2) ≤ 23) ∧
          (L + 4 ≤ v.length → numAt v (L + 2) (L + 4) ≤ 59) ∧
          (L + 6 ≤ v.length → numAt v (L + 4) (L + 6) ≤ 59))))) := by
  unfold dwfDatePart
  split_ifs <;> simp_all [dataTypeErr, validOk] <;> omega

/- ## Claim C4 characterization lemmas (one per table row) -/

theorem vdwf_203_iff (v : List Char) (h12 : v.length = 12) (hd : v.all Char.isDigit = true) :
    ((validateDateWithFormat v (str "203")).isValid = true ↔
      ((validateDate (v.take 8)).isValid = true ∧ (validateTime (v.drop 8)).isValid = true)) := by
  have hne : v.isEmpty = false := isEmpty_false_of_length v 12 h12 (by omega)
  have hf : formatMap (str "203") = some ⟨12, DtPattern.datetime, str "CCYYMMDDHHMM"⟩ := rfl
  have hpre : listStartsWith (str "CCYY") (str "CCYYMMDDHHMM") = true := rfl
  have hlt : (v.take 8).length = 8 := by simp [List.length_take, h12]
  have hdt : (v.take 8).all Char.isDigit = true := all_take _ v 8 hd
  have hld : (v.drop 8).length = 4 := by simp [List.length_drop, h12]
  have hdd : (v.drop 8).all Char.isDigit = true := all_drop _ v 8 hd
  simp only [validateDateWithFormat, hf, h12, hne, hd, digitsPlus, hpre]
  norm_num
  rw [dwfDatePart_datetime_iff, validateDate_eight_iff (v.take 8) hlt hdt,
      validateTime_valid_iff (v.drop 8) (by omega) hdd]
  rw [numAt_take v 8 0 4 (by omega), numAt_take v 8 4 6 (by omega), numAt_take v 8 6 8 (by omega),
      numAt_drop v 8 0 2, numAt_drop v 8 2 4]
  simp only [h12, hld]
  norm_num
  omega

theorem vdwf_102_iff (v : List Char) (h8 : v.length = 8) (hd : v.all Char.isDigit = true) :
    ((validateDateWithFormat v (str "102")).isValid = true ↔ (validateDate v).isValid = true) := by
  have hne : v.isEmpty = false := isEmpty_false_of_length v 8 h8 (by omega)
  have hf : formatMap (str "102") = some ⟨8, DtPattern.date, str "CCYYMMDD"⟩ := rfl
  have hpre : listStartsWith (str "CCYY") (str "CCYYMMDD") = true := rfl
  simp only [validateDateWithFormat, hf, h8, hne, hd, digitsPlus, hpre]
  norm_num
  rw [Bool.eq_iff_iff, dwfDatePart_date_iff, validateDate_eight_iff v h8 hd]

theorem vdwf_602_iff (v : List Char) (h6 : v.length = 6) (hd : v.all Char.isDigit = true) :
    ((validateDateWithFormat v (str "602")).isValid = true ↔ (validateDate v).isValid = true) := by
  have hne : v.isEmpty = false := isEmpty_false_of_length v 6 h6 (by omega)
  have hf : formatMap (str "602") = some ⟨6, DtPattern.date, str "YYMMDD"⟩ := rfl
  have hpre1 : listStartsWith (str "CCYY") (str "YYMMDD") = false := rfl
  have hpre2 : listStartsWith (str "YY") (str "YYMMDD") = true := rfl
  simp only [validateDateWithFormat, hf, h6, hne, hd, digitsPlus, hpre1, hpre2]
  norm_num
  rw [Bool.eq_iff_iff, dwfDatePart_date_iff, validateDate_six_iff v h6 hd]

theorem vdwf_616_iff (v : List Char) (h8 : v.length = 8) (hd : v.all Char.isDigit = true) :
    ((validateDateWithFormat v (str "616")).isValid = true ↔
      ((validateDate (v.take 6)).isValid = true ∧ numAt v 6 8 ≤ 23)) := by
  have hne : v.isEmpty = false := isEmpty_false_of_length v 8 h8 (by omega)
  have hf : formatMap (str "616") = some ⟨8, DtPattern.datetime, str "YYMMDDHHMM"⟩ := rfl
  have hpre1 : listStartsWith (str "CCYY") (str "YYMMDDHHMM") = false := rfl
  have hpre2 : listStartsWith (str "YY") (str "YYMMDDHHMM") = true := rfl
  have hlt : (v.take 6).length = 6 := by simp [List.length_take, h8]
  have hdt : (v.take 6).all Char.isDigit = true := all_take _ v 6 hd
  simp only [validateDateWithFormat, hf, h8, hne, hd, digitsPlus, hpre1, hpre2]
  norm_num
  rw [dwfDatePart_datetime_iff, validateDate_six_iff (v.take 6) hlt hdt]
  rw [numAt_take v 6 0 2 (by omega), numAt_take v 6 2 4 (by omega), numAt_take v 6 4 6 (by omega)]
  simp only [h8]
  norm_num
  omega

theorem vdwf_303_iff (v : List Char) (h4 : v.length = 4) (hd : v.all Char.isDigit = true) :
    ((validateDateWithFormat v (str "303")).isValid = true ↔ (validateTime v).isValid = true) := by
  have hne : v.isEmpty = false := isEmpty_false_of_length v 4 h4 (by omega)
  have hf : formatMap (str "303") = some ⟨4, DtPattern.time, str "HHMM"⟩ := rfl
  rw [validateTime_valid_iff v (by omega) hd]
  simp only [validateDateWithFormat, hf, h4, hne, hd, digitsPlus]
  norm_num
  split_ifs <;> simp_all [dataTypeErr, validOk] <;> omega

theorem vdwf_304_iff (v : List Char) (h6 : v.length = 6) (hd : v.all Char.isDigit = true) :
    ((validateDateWithFormat v (str "304")).isValid = true ↔ (validateTime v).isValid = true) := by
  have hne : v.isEmpty = false := isEmpty_false_of_length v 6 h6 (by omega)
  have hf : formatMap (str "304") = some ⟨6, DtPattern.time, str "HHMMSS"⟩ := rfl
  rw [validateTime_valid_iff v (by omega) hd]
  simp only [validateDateWithFormat, hf, h6, hne, hd, digitsPlus]
  norm_num
  split_ifs <;> simp_all [dataTypeErr, validOk] <;> omega

theorem vdwf_718_iff (v : List Char) (h10 : v.length = 10) (hd : v.all Char.isDigit = true) :
    ((validateDateWithFormat v (str "718")).isValid = true ↔
      ((validateDate (v.take 6)).isValid = true ∧ (validateTime (v.drop 6)).isValid = true)) := by
  have hne : v.isEmpty = false := isEmpty_false_of_length v 10 h10 (by omega)
  have hf : formatMap (str "718") = some ⟨10, DtPattern.datetime, str "YYMMDDHHMMSS"⟩ := rfl
  have hpre1 : listStartsWith (str "CCYY") (str "YYMMDDHHMMSS") = false := rfl
  have hpre2 : listStartsWith (str "YY") (str "YYMMDDHHMMSS") = true := rfl
  have hlt : (v.take 6).length = 6 := by simp [List.length_take, h10]
  have hdt : (v.take 6).all Char.isDigit = true := all_take _ v 6 hd
  have hld : (v.drop 6).length = 4 := by simp [List.length_drop, h10]
  have hdd : (v.drop 6).all Char.isDigit = true := all_drop _ v 6 hd
  simp only [validateDateWithFormat, hf, h10, hne, hd, digitsPlus, hpre1, hpre2]
  norm_num
  rw [dwfDatePart_datetime_iff, validateDate_six_iff (v.take 6) hlt hdt,
      validateTime_valid_iff (v.drop 6) (by omega) hdd]
  rw [numAt_take v 6 0 2 (by omega), numAt_take v 6 2 4 (by omega), numAt_take v 6 4 6 (by omega),
      numAt_drop v 6 0 2, numAt_drop v 6 2 4]
  simp only [h10, hld]
  norm_num
  omega

theorem vdwf_204_iff (v : List Char) (h14 : v.length = 14) (hd : v.all Char.isDigit = true) :
    ((validateDateWithFormat v (str "204")).isValid = true ↔
      ((validateDate (v.take 8)).isValid = true ∧ (validateTime (v.drop 8)).isValid = true)) := by
  have hne : v.isEmpty = false := isEmpty_false_of_length v 14 h14 (by omega)
  have hf : formatMap (str "204") = some ⟨14, DtPattern.datetime, str "CCYYMMDDHHMMSS"⟩ := rfl
  have hpre : listStartsWith (str "CCYY") (str "CCYYMMDDHHMMSS") = true := rfl
  have hlt : (v.take 8).length = 8 := by simp [List.length_take, h14]
  have hdt : (v.take 8).all Char.isDigit = true := all_take _ v 8 hd
  have hld : (v.drop 8).length = 6 := by simp [List.length_drop, h14]
  have hdd : (v.drop 8).all Char.isDigit = true := all_drop _ v 8 hd
  simp only [validateDateWithFormat, hf, h14, hne, hd, digitsPlus, hpre]
  norm_num
  rw [dwfDatePart_datetime_iff, validateDate_eight_iff (v.take 8) hlt hdt,
      validateTime_valid_iff (v.drop 8) (by omega) hdd]
  rw [numAt_take v 8 0 4 (by omega), numAt_take v 8 4 6 (by omega), numAt_take v 8 6 8 (by omega),
      numAt_drop v 8 0 2, numAt_drop v 8 2 4, numAt_drop v 8 4 6]
  simp only [h14, hld]
  norm_num
  omega

theorem vdwf_201_iff (v : List Char) (h10 : v.length = 10) (hd : v.all Char.isDigit = true) :
    ((validateDateWithFormat v (str "201")).isValid = true ↔
      ((validateDate (v.take 6)).isValid = true ∧ (validateTime (v.drop 6)).isValid = true)) := by
  have hne : v.isEmpty = false := isEmpty_false_of_length v 10 h10 (by omega)
  have hf : formatMap (str "201") = some ⟨10, DtPattern.datetime, str "YYMMDDHHMM"⟩ := rfl
  have hpre1 : listStartsWith (str "CCYY") (str "YYMMDDHHMM") = false := rfl
  have hpre2 : listStartsWith (str "YY") (str "YYMMDDHHMM") = true := rfl
  have hlt : (v.take 6).length = 6 := by simp [List.length_take, h10]
  have hdt : (v.take 6).all Char.isDigit = true := all_take _ v 6 hd
  have hld : (v.drop 6).length = 4 := by simp [List.length_drop, h10]
  have hdd : (v.drop 6).all Char.isDigit = true := all_drop _ v 6 hd
  simp only [validateDateWithFormat, hf, h10, hne, hd, digitsPlus, hpre1, hpre2]
  norm_num
  rw [dwfDatePart_datetime_iff, validateDate_six_iff (v.take 6) hlt hdt,
      validateTime_valid_iff (v.drop 6) (by omega) hdd]
  rw [numAt_take v 6 0 2 (by omega), numAt_take v 6 2 4 (by omega), numAt_take v 6 4 6 (by omega),
      numAt_drop v 6 0 2, numAt_drop v 6 2 4]
  simp only [h10, hld]
  norm_num
  omega

theorem vdwf_known_wrong_length (v q : List Char) (fmt : DtFormat) (hq : formatMap q = some fmt)
    (hlen : v.length ≠ fmt.len) : (validateDateWithFormat v q).isValid = false := by
  unfold validateDateWithFormat
  rw [hq]
  simp [hlen, dataTypeErr]

theorem vdwf_unknown_digits_iff (v q : List Char) (hq : formatMap q = none) :
    ((validateDateWithFormat v q).isValid = true ↔ digitsPlus v = true) := by
  unfold validateDateWithFormat
  rw [hq]
  split_ifs <;> simp_all [dataTypeErr, validOk]

/-- Claim C4: the format-qualified validator enforces the exact expected
length of the fixed qualifier table (any other length is invalid), then
applies the date and time field-range checks of the plain date and time
validators to the relevant substrings; an unrecognized qualifier accepts
exactly the nonempty all-digit values. -/
theorem validateDateWithFormat_spec :
    (∀ (v q : List Char) (fmt : DtFormat), formatMap q = some fmt → v.length ≠ fmt.len →
        (validateDateWithFormat v q).isValid = false)
  ∧ (∀ v q : List Char, formatMap q = none →
        ((validateDateWithFormat v q).isValid = true ↔ digitsPlus v = true))
  ∧ formatMap (str "102") = some ⟨8, DtPattern.date, str "CCYYMMDD"⟩
  ∧ formatMap (str "203") = some ⟨12, DtPattern.datetime, str "CCYYMMDDHHMM"⟩
  ∧ formatMap (str "204") = some ⟨14, DtPattern.datetime, str "CCYYMMDDHHMMSS"⟩
  ∧ formatMap (str "602") = some ⟨6, DtPattern.date, str "YYMMDD"⟩
  ∧ formatMap (str "616") = some ⟨8, DtPattern.datetime, str "YYMMDDHHMM"⟩
  ∧ formatMap (str "718") = some ⟨10, DtPattern.datetime, str "YYMMDDHHMMSS"⟩
  ∧ formatMap (str "201") = some ⟨10, DtPattern.datetime, str "YYMMDDHHMM"⟩
  ∧ formatMap (str "303") = some ⟨4, DtPattern.time, str "HHMM"⟩
  ∧ formatMap (str "304") = some ⟨6, DtPattern.time, str "HHMMSS"⟩
  ∧ (∀ v : List Char, v.length = 8 → v.all Char.isDigit = true →
      ((validateDateWithFormat v (str "102")).isValid = true ↔ (validateDate v).isValid = true))
  ∧ (∀ v : List Char, v.length = 12 → v.all Char.isDigit = true →
      ((validateDateWithFormat v (str "203")).isValid = true ↔
        ((validateDate (v.take 8)).isValid = true ∧ (validateTime (v.drop 8)).isValid = true)))
  ∧ (∀ v : List Char, v.length = 14 → v.all Char.isDigit = true →
      ((validateDateWithFormat v (str "204")).isValid = true ↔
        ((validateDate (v.take 8)).isValid = true ∧ (validateTime (v.drop 8)).isValid = true)))
  ∧ (∀ v : List Char, v.length = 6 → v.all Char.isDigit = true →
      ((validateDateWithFormat v (str "602")).isValid = true ↔ (validateDate v).isValid = true))
  ∧ (∀ v : List Char, v.length = 8 → v.all Char.isDigit = true →
      ((validateDateWithFormat v (str "616")).isValid = true ↔
        ((validateDate (v.take 6)).isValid = true ∧ numAt v 6 8 ≤ 23)))
  ∧ (∀ v : List Char, v.length = 10 → v.all Char.isDigit = true →
      ((validateDateWithFormat v (str "718")).isValid = true ↔
        ((validateDate (v.take 6)).isValid = true ∧ (validateTime (v.drop 6)).isValid = true)))
  ∧ (∀ v : List Char, v.length = 10 → v.all Char.isDigit = true →
      ((validateDateWithFormat v (str "201")).isValid = true ↔
        ((validateDate (v.take 6)).isValid = true ∧ (validateTime (v.drop 6)).isValid = true)))
  ∧ (∀ v : List Char, v.length = 4 → v.all Char.isDigit = true →
      ((validateDateWithFormat v (str "303")).isValid = true ↔ (validateTime v).isValid = true))
  ∧ (∀ v : List Char, v.length = 6 → v.all Char.isDigit = true →
      ((validateDateWithFormat v (str "304")).isValid = true ↔ (validateTime v).isValid = true)) :=
  ⟨vdwf_known_wrong_length, vdwf_unknown_digits_iff,
   rfl, rfl, rfl, rfl, rfl, rfl, rfl, rfl, rfl,
   vdwf_102_iff, vdwf_203_iff, vdwf_204_iff, vdwf_602_iff, vdwf_616_iff,
   vdwf_718_iff, vdwf_201_iff, vdwf_303_iff, vdwf_304_iff⟩

/-- Witness for claim C4: qualifier 102 rejects the 6-character value
240115 (wrong expected length) and accepts 20240115 exactly as the plain
date validator does. -/
theorem validateDateWithFormat_spec_witness :
    (validateDateWithFormat (str "240115") (str "102")).isValid = false
  ∧ ((validateDateWithFormat (str "20240115") (str "102")).isValid = true ↔
      (validateDate (str "20240115")).isValid = true) := by
  obtain ⟨hA, _, _, _, _, _, _, _, _, _, _, hC, _⟩ := validateDateWithFormat_spec
  exact ⟨hA (str "240115") (str "102") ⟨8, DtPattern.date, str "CCYYMMDD"⟩ rfl (by decide),
         hC (str "20240115") (by decide) (by decide)⟩

/- ## Claim C6 lemmas: split, join and the locator walk -/

theorem consHead_ne_nil (c : Char) (l : List (List Char)) : consHead c l ≠ [] := by
  cases l <;> simp [consHead]

theorem splitOnChar_ne_nil (d : Char) (l : List Char) : splitOnChar d l ≠ [] := by
  induction l with
  | nil => simp [splitOnChar]
  | cons c cs ih =>
    unfold splitOnChar
    split_ifs
    · simp
    · exact consHead_ne_nil c (splitOnChar d cs)

theorem splitOnChar_cons (d c : Char) (cs : List Char) :
    splitOnChar d (c :: cs) =
      if c = d then [] :: splitOnChar d cs else consHead c (splitOnChar d cs) := rfl

theorem splitOnChar_no_delim (d : Char) (l : List Char) (h : d ∉ l) : splitOnChar d l = [l] := by
  induction l with
  | nil => rfl
  | cons c cs ih =>
    have hc : ¬c = d := by
      intro hcd
      exact h (hcd ▸ List.mem_cons_self c cs)
    have hcs : d ∉ cs := fun hm => h (List.mem_cons_of_mem c hm)
    rw [splitOnChar_cons, if_neg hc, ih hcs]
    rfl

theorem splitOnChar_append_delim (d : Char) (x t : List Char) (hx : d ∉ x) :
    splitOnChar d (x ++ d :: t) = x :: splitOnChar d t := by
  induction x with
  | nil => simp [splitOnChar]
  | cons c cs ih =>
    have hc : ¬c = d := by
      intro hcd
      exact hx (hcd ▸ List.mem_cons_self c cs)
    have hcs : d ∉ cs := fun hm => hx (List.mem_cons_of_mem c hm)
    have hstep := ih hcs
    show splitOnChar d (c :: (cs ++ d :: t)) = (c :: cs) :: splitOnChar d t
    rw [splitOnChar_cons, if_neg hc, hstep]
    rfl

theorem splitOnChar_joinWith (d : Char) (x : List Char) (xs : List (List Char))
    (hx : d ∉ x) (hxs : ∀ p ∈ xs, d ∉ p) :
    splitOnChar d (joinWith d (x :: xs)) = x :: xs := by
  induction xs generalizing x with
  | nil => exact splitOnChar_no_delim d x hx
  | cons y ys ih =>
    have hy : d ∉ y := hxs y (List.mem_cons_self y ys)
    have hys : ∀ p ∈ ys, d ∉ p := fun p hp => hxs p (List.mem_cons_of_mem y hp)
    show splitOnChar d (x ++ d :: joinWith d (y :: ys)) = x :: y :: ys
    rw [splitOnChar_append_delim d x _ hx, ih y hy hys]

theorem joinWith_splitOnChar (d : Char) (l : List Char) :
    joinWith d (splitOnChar d l) = l := by
  induction l with
  | nil => rfl
  | cons c cs ih =>
    rw [splitOnChar_cons]
    split_ifs with hc
    · subst hc
      cases h : splitOnChar c cs with
      | nil => exact absurd h (splitOnChar_ne_nil c cs)
      | cons t ts =>
        rw [h] at ih
        show joinWith c ([] :: t :: ts) = c :: cs
        show [] ++ c :: joinWith c (t :: ts) = c :: cs
        simp [ih]
    · cases h : splitOnChar d cs with
      | nil => exact absurd h (splitOnChar_ne_nil d cs)
      | cons t ts =>
        rw [h] at ih
        simp only [consHead]
        cases ts with
        | nil =>
          show joinWith d [c :: t] = c :: cs
          show c :: t = c :: cs
          simpa [joinWith] using ih
        | cons r rs =>
          show joinWith d ((c :: t) :: r :: rs) = c :: cs
          show (c :: t) ++ d :: joinWith d (r :: rs) = c :: cs
          simpa [joinWith] using ih

theorem splitOnChar_delim_free (d : Char) (l : List Char) :
    ∀ p ∈ splitOnChar d l, d ∉ p := by
  induction l with
  | nil =>
    intro p hp
    simp [splitOnChar] at hp
    simp [hp]
  | cons c cs ih =>
    intro p hp
    rw [splitOnChar_cons] at hp
    split_ifs at hp with hc
    · rcases List.mem_cons.mp hp with h | h
      · simp [h]
      · exact ih p h
    · cases h : splitOnChar d cs with
      | nil => exact absurd h (splitOnChar_ne_nil d cs)
      | cons t ts =>
        rw [h] at hp ih
        simp only [consHead] at hp
        rcases List.mem_cons.mp hp with hh | hh
        · subst hh
          intro hdm
          rcases List.mem_cons.mp hdm with h1 | h1
          · exact hc h1.symm
          · exact ih t (List.mem_cons_self t ts) h1
        · exact ih p (List.mem_cons_of_mem t hh)

theorem partEnd_shift (ps : List (List Char)) : ∀ (a pos k : Nat),
    partEnd (a + pos) ps k = a + partEnd pos ps k := by
  induction ps with
  | nil => intro a pos k; cases k <;> rfl
  | cons p rest ih =>
    intro a pos k
    cases k with
    | zero => show a + pos + 1 + p.length = a + (pos + 1 + p.length); omega
    | succ k =>
      show partEnd (a + pos + 1 + p.length) rest k = a + partEnd (pos + 1 + p.length) rest k
      have : a + pos + 1 + p.length = a + (pos + 1 + p.length) := by omega
      rw [this, ih]

theorem partEnd_gt (ps : List (List Char)) : ∀ (pos k : Nat), k < ps.length →
    pos < partEnd pos ps k := by
  induction ps with
  | nil => intro pos k h; simp at h
  | cons p rest ih =>
    intro pos k h
    cases k with
    | zero => show pos < pos + 1 + p.length; omega
    | succ k =>
      have hk : k < rest.length := by simpa using h
      have := ih (pos + 1 + p.length) k hk
      show pos < partEnd (pos + 1 + p.length) rest k
      omega

theorem endAfter_succ_eq_partEnd (ps : List (List Char)) : ∀ (x : List Char) (j : Nat),
    j < ps.length → endAfter (x :: ps) (j + 1) = partEnd x.length ps j := by
  induction ps with
  | nil => intro x j h; simp at h
  | cons p rest ih =>
    intro x j h
    cases j with
    | zero => rfl
    | succ j =>
      have hj : j < rest.length := by simpa using h
      show x.length + 1 + endAfter (p :: rest) (j + 1) = partEnd (x.length + 1 + p.length) rest j
      rw [ih p j hj]
      have harith : x.length + 1 + p.length = (x.length + 1) + p.length := by omega
      rw [harith, partEnd_shift]

theorem gepLoop_hits (ps : List (List Char)) : ∀ (k i pos : Nat), k < ps.length →
    gepLoop (partEnd pos ps k) ps i pos = some (i + k) := by
  induction ps with
  | nil => intro k i pos h; simp at h
  | cons p rest ih =>
    intro k i pos h
    cases k with
    | zero =>
      show gepLoop (pos + 1 + p.length) (p :: rest) i pos = some (i + 0)
      unfold gepLoop
      rw [if_pos (by omega)]
      simp
    | succ k =>
      have hk : k < rest.length := by simpa using h
      have hgt : pos + 1 + p.length < partEnd (pos + 1 + p.length) rest k :=
        partEnd_gt rest (pos + 1 + p.length) k hk
      show gepLoop (partEnd (pos + 1 + p.length) rest k) (p :: rest) i pos = some (i + (k + 1))
      unfold gepLoop
      rw [if_neg (by omega), ih k (i + 1) (pos + 1 + p.length) hk]
      congr 1
      omega

theorem joinWith_get_endAfter (d : Char) : ∀ (pieces : List (List Char)) (k : Nat),
    k + 1 < pieces.length → (joinWith d pieces).get? (endAfter pieces k) = some d := by
  intro pieces
  induction pieces with
  | nil => intro k h; simp at h
  | cons x ps ih =>
    intro k h
    cases ps with
    | nil => simp at h
    | cons y ys =>
      show (x ++ d :: joinWith d (y :: ys)).get? (endAfter (x :: y :: ys) k) = some d
      cases k with
      | zero =>
        show (x ++ d :: joinWith d (y :: ys)).get? x.length = some d
        rw [List.get?_append_right (Nat.le_refl _)]
        simp
      | succ k =>
        have hk : k + 1 < (y :: ys).length := by simpa using h
        show (x ++ d :: joinWith d (y :: ys)).get? (x.length + 1 + endAfter (y :: ys) k) = some d
        rw [List.get?_append_right (by omega)]
        have harith : x.length + 1 + endAfter (y :: ys) k - x.length = (endAfter (y :: ys) k) + 1 := by
          omega
        rw [harith]
        simpa using ih k hk

/- ## Claim C6 -/

/-- Counterexample for claim C6: in the line AB*x*y, the character at
offset 4 is the element delimiter separating element 1 (value x) from
element 2 (value y); `getElementPosition` assigns offset 4 to element 1,
the element that ends at the delimiter, not to element 2. -/
theorem getElementPosition_delimiter_cex :
    charAt (str "AB*x*y") 4 = some '*'
  ∧ getElementPosition (str "AB*x*y") 4 (str "AB") '*' = some 1
  ∧ getElementPosition (str "AB*x*y") 4 (str "AB") '*' ≠ some 2 := by
  decide

/-- Claim C6 as amended: an offset exactly on the element delimiter that
separates element i from element i+1 is assigned to element i, the
element ending at the delimiter, because each element range is inclusive
at its right end and the walk checks elements left to right. -/
theorem getElementPosition_on_delimiter (segmentCode : List Char) (ps : List (List Char))
    (d : Char) (i : Nat) (hseg : d ∉ segmentCode) (hps : ∀ p ∈ ps, d ∉ p)
    (h1 : 1 ≤ i) (hi : i < ps.length) :
    (joinWith d (segmentCode :: ps)).get? (endAfter (segmentCode :: ps) i) = some d
  ∧ getElementPosition (joinWith d (segmentCode :: ps)) (endAfter (segmentCode :: ps) i)
      segmentCode d = some i := by
  constructor
  · exact joinWith_get_endAfter d (segmentCode :: ps) i (by simp; omega)
  · unfold getElementPosition
    rw [splitOnChar_joinWith d segmentCode ps hseg hps]
    have hlen2 : ¬((segmentCode :: ps).length < 2) := by
      simp
      omega
    rw [if_neg hlen2]
    cases i with
    | zero => omega
    | succ j =>
      rw [endAfter_succ_eq_partEnd ps segmentCode j (by omega)]
      show gepLoop (partEnd segmentCode.length ps j) ps 1 segmentCode.length = some (j + 1)
      rw [gepLoop_hits ps j 1 segmentCode.length (by omega)]
      congr 1
      omega

/-- Witness for the amended claim C6 on the line AB*x*y with the offset
of the delimiter after element 1. -/
theorem getElementPosition_on_delimiter_witness :
    (joinWith '*' [str "AB", str "x", str "y"]).get? (endAfter [str "AB", str "x", str "y"] 1) = some '*'
  ∧ getElementPosition (joinWith '*' [str "AB", str "x", str "y"])
      (endAfter [str "AB", str "x", str "y"] 1) (str "AB") '*' = some 1 :=
  getElementPosition_on_delimiter (str "AB") [str "x", str "y"] '*' 1
    (by decide) (by decide) (by decide) (by decide)

/- ## Claim C9 -/

/-- Counterexample for claim C9.  First half: when no schema directory
exists at all, the scanner keeps the structurally detected version
005010 instead of the claimed unconditional first fallback 004010.
Second half: the hover provider, with the detected version 003050
missing but the fallback 005010 present, jumps to 004010 without ever
consulting the rest of the ordered list (whose first existing entry is
005010). -/
theorem resolveVersion_fallback_cex :
    validateDocumentResolveVersion (fun _ => false) x12FallbackVersions (str "005010") = str "005010"
  ∧ str "005010" ≠ str "004010"
  ∧ getDocumentVersionResolve (fun v => decide (v = str "005010")) (fun _ => false)
      x12FallbackVersions (some (str "003050")) = str "004010"
  ∧ x12FallbackVersions.find? (fun v => decide (v = str "005010")) = some (str "005010") := by
  decide

/-- Claim C9 as amended: the scanner keeps an existing detected version,
falls through the ordered list to the first existing fallback, and when
none exists keeps the detected version; the hover provider takes the
first fallback when nothing was detected, keeps a detected version that
is already loaded or whose directory exists, and otherwise switches to
the first fallback unconditionally, never consulting the rest of the
list. -/
theorem resolveVersion_fallback_amended :
    (∀ (ex : List Char → Bool) (fbs : List (List Char)) (dv : List Char),
        ex dv = true → validateDocumentResolveVersion ex fbs dv = dv)
  ∧ (∀ (ex : List Char → Bool) (fbs : List (List Char)) (dv fb : List Char),
        ex dv = false → fbs.find? ex = some fb → validateDocumentResolveVersion ex fbs dv = fb)
  ∧ (∀ (ex : List Char → Bool) (fbs : List (List Char)) (dv : List Char),
        ex dv = false → fbs.find? ex = none → validateDocumentResolveVersion ex fbs dv = dv)
  ∧ (∀ (ex ld : List Char → Bool) (fbs : List (List Char)),
        getDocumentVersionResolve ex ld fbs none = fbs.headD [])
  ∧ (∀ (ex ld : List Char → Bool) (fbs : List (List Char)) (dv : List Char),
        ld (toLowerL dv) = true → getDocumentVersionResolve ex ld fbs (some dv) = toLowerL dv)
  ∧ (∀ (ex ld : List Char → Bool) (fbs : List (List Char)) (dv : List Char),
        ex (toLowerL dv) = true → getDocumentVersionResolve ex ld fbs (some dv) = toLowerL dv)
  ∧ (∀ (ex ld : List Char → Bool) (fbs : List (List Char)) (dv : List Char),
        ld (toLowerL dv) = false → ex (toLowerL dv) = false →
        getDocumentVersionResolve ex ld fbs (some dv) = fbs.headD []) := by
  refine ⟨?_, ?_, ?_, ?_, ?_, ?_, ?_⟩
  · intro ex fbs dv h
    simp [validateDocumentResolveVersion, h]
  · intro ex fbs dv fb h hf
    simp [validateDocumentResolveVersion, h, hf]
  · intro ex fbs dv h hf
    simp [validateDocumentResolveVersion, h, hf]
  · intro ex ld fbs
    rfl
  · intro ex ld fbs dv h
    simp [getDocumentVersionResolve, h]
  · intro ex ld fbs dv h
    by_cases hld : ld (toLowerL dv) = true <;> simp [getDocumentVersionResolve, h, hld]
  · intro ex ld fbs dv h1 h2
    simp [getDocumentVersionResolve, h1, h2]

/-- Witness for the amended claim C9: the scanner falls to 005010 when
only that directory exists; the hover provider falls to 004010 when the
detected D96A is neither loaded nor present. -/
theorem resolveVersion_fallback_amended_witness :
    validateDocumentResolveVersion (fun v => decide (v = str "005010")) x12FallbackVersions
      (str "003050") = str "005010"
  ∧ getDocumentVersionResolve (fun _ => false) (fun _ => false) x12FallbackVersions
      (some (str "D96A")) = str "004010" :=
  ⟨resolveVersion_fallback_amended.2.1 (fun v => decide (v = str "005010"))
      x12FallbackVersions (str "003050") (str "005010") (by decide) (by decide),
   resolveVersion_fallback_amended.2.2.2.2.2.2 (fun _ => false) (fun _ => false)
      x12FallbackVersions (str "D96A") (by decide) (by decide)⟩

/- ## Claim C10 -/

/-- Claim C10: the document scanner splits every line on a hard-coded
element delimiter, the asterisk for X12 and the plus sign for EDIFACT,
with no reference to the delimiters declared in the envelope: the parts
join back with that character, no part contains it, and a line free of
the hard-coded character is never split, whatever other (declared)
delimiter characters it contains. -/
theorem validateDocument_hardcoded_delimiter :
    scannerElementDelimiter false = '*'
  ∧ scannerElementDelimiter true = '+'
  ∧ (∀ (isEdifact : Bool) (line : List Char),
        joinWith (scannerElementDelimiter isEdifact) (scannerLineParts isEdifact line) = line)
  ∧ (∀ (isEdifact : Bool) (line : List Char), ∀ p ∈ scannerLineParts isEdifact line,
        scannerElementDelimiter isEdifact ∉ p)
  ∧ (∀ line : List Char, '*' ∉ line → scannerLineParts false line = [line])
  ∧ (∀ line : List Char, '+' ∉ line → scannerLineParts true line = [line]) := by
  refine ⟨rfl, rfl, ?_, ?_, ?_, ?_⟩
  · intro b line
    exact joinWith_splitOnChar (scannerElementDelimiter b) line
  · intro b line
    exact splitOnChar_delim_free (scannerElementDelimiter b) line
  · intro line h
    exact splitOnChar_no_delim '*' line h
  · intro line h
    exact splitOnChar_no_delim '+' line h

/-- Witness for claim C10: a line using a declared delimiter other than
the default is returned whole by the scanner split. -/
theorem validateDocument_hardcoded_delimiter_witness :
    scannerLineParts false (str "NAD|42") = [str "NAD|42"]
  ∧ scannerLineParts true (str "NAD|42") = [str "NAD|42"] :=
  ⟨validateDocument_hardcoded_delimiter.2.2.2.2.1 (str "NAD|42") (by decide),
   validateDocument_hardcoded_delimiter.2.2.2.2.2 (str "NAD|42") (by decide)⟩

/- ## Claim C8 -/

/-- Claim C8 (code bug evidence): on a 106-character ISA document whose
character at offset 3 (the real ISA element separator position, as the
comment above the code and `updateX12Ids` both use) is a pipe, while
offsets 103 and 105 happen to hold the standard characters,
`normalizeDelimiters` reads its element delimiter from offset 103,
concludes the document is already normalized, and rewrites nothing. -/
theorem normalizeDelimiters_reads_offset_103 :
    updateX12IdsElemDelim (str "ISA" ++ '|' :: List.replicate 99 'A' ++ '*' :: 'A' :: ['~']) = some '|'
  ∧ normalizeDelimitersElemDelim (str "ISA" ++ '|' :: List.replicate 99 'A' ++ '*' :: 'A' :: ['~']) = some '*'
  ∧ normalizeDelimitersSegDelim (str "ISA" ++ '|' :: List.replicate 99 'A' ++ '*' :: 'A' :: ['~']) = some '~'
  ∧ hasEnvelope (str "ISA" ++ '|' :: List.replicate 99 'A' ++ '*' :: 'A' :: ['~']) = true
  ∧ normalizeDelimiters (str "ISA" ++ '|' :: List.replicate 99 'A' ++ '*' :: 'A' :: ['~'])
      = str "ISA" ++ '|' :: List.replicate 99 'A' ++ '*' :: 'A' :: ['~'] := by
  decide

/- ## Claim C7 lemmas: the two normalization commands -/

theorem replaceChar_some (c r : Char) (l : List Char) :
    replaceChar (some c) r l = l.map (fun x => if x = c then r else x) := rfl

theorem charAt_map (f : Char → Char) (l : List Char) (n : Nat) :
    charAt (l.map f) n = (charAt l n).map f := by
  simp [charAt, List.get?_map]

theorem normalizeDelimiters_noop_eq (t : List Char)
    (h1 : normalizeDelimitersElemDelim t = some '*')
    (h2 : normalizeDelimitersSegDelim t = some '~') :
    normalizeDelimiters t = t := by
  unfold normalizeDelimiters
  dsimp only
  by_cases h : (!hasEnvelope t) = true
  · rw [if_pos h]
  · rw [if_neg h, if_pos ⟨h1, h2⟩]

theorem normalizeDelimiters_pipeline (t : List Char) (e s : Char)
    (henv : hasEnvelope t = true)
    (he : normalizeDelimitersElemDelim t = some e)
    (hs : normalizeDelimitersSegDelim t = some s)
    (hnn : ¬(e = '*' ∧ s = '~')) :
    normalizeDelimiters t = t.map (x12Map e s) := by
  unfold normalizeDelimiters
  dsimp only
  rw [he, hs]
  rw [if_neg (by simp [henv])]
  rw [if_neg (by simpa using hnn)]
  have hu1 : (if (some e : Option Char) ≠ some '*' then replaceChar (some e) sohChar t
              else replaceChar (some '*') sohChar t) = replaceChar (some e) sohChar t := by
    by_cases h : e = '*'
    · subst h
      simp
    · rw [if_pos (by simpa using h)]
  have hu2 : ∀ l : List Char, (if (some s : Option Char) ≠ some '~' then replaceChar (some s) stxChar l
              else replaceChar (some '~') stxChar l) = replaceChar (some s) stxChar l := by
    intro l
    by_cases h : s = '~'
    · subst h
      simp
    · rw [if_pos (by simpa using h)]
  rw [hu1, hu2]
  rw [replaceChar_some, replaceChar_some, replaceChar_some, replaceChar_some]
  rw [List.map_map, List.map_map, List.map_map]
  rfl
theorem x12Step_self (a b : Char) : x12Step a b a = b := by
  simp [x12Step]

theorem x12Step_other (a b c : Char) (h : c ≠ a) : x12Step a b c = c := by
  simp [x12Step, h]

theorem x12Map_elem (e s : Char) (hss : s ≠ sohChar) : x12Map e s e = '*' := by
  unfold x12Map
  rw [x12Step_self, x12Step_other s stxChar sohChar (fun h => hss h.symm),
      x12Step_self, x12Step_other stxChar '~' '*' (by decide)]

theorem x12Map_seg (e s : Char) (hne : s ≠ e) : x12Map e s s = '~' := by
  unfold x12Map
  rw [x12Step_other e sohChar s hne, x12Step_self,
      x12Step_other sohChar '*' stxChar (by decide), x12Step_self]

theorem x12Map_ee_values (e c : Char) (he : e ≠ sohChar) :
    x12Map e e c = '*' ∨ x12Map e e c = '~' ∨ (x12Map e e c = c ∧ c ≠ sohChar ∧ c ≠ stxChar) := by
  unfold x12Map
  by_cases h1 : c = e
  · subst h1
    rw [x12Step_self, x12Step_other c stxChar sohChar (fun h => he h.symm),
        x12Step_self, x12Step_other stxChar '~' '*' (by decide)]
    exact Or.inl rfl
  · rw [x12Step_other e sohChar c h1, x12Step_other e stxChar c h1]
    by_cases h3 : c = sohChar
    · subst h3
      rw [x12Step_self, x12Step_other stxChar '~' '*' (by decide)]
      exact Or.inl rfl
    · rw [x12Step_other sohChar '*' c h3]
      by_cases h4 : c = stxChar
      · subst h4
        rw [x12Step_self]
        exact Or.inr (Or.inl rfl)
      · rw [x12Step_other stxChar '~' c h4]
        exact Or.inr (Or.inr ⟨rfl, h3, h4⟩)

theorem x12Map_star_star_fixed (c : Char) (h1 : c ≠ sohChar) (h2 : c ≠ stxChar) :
    x12Map '*' '*' c = c := by
  unfold x12Map
  by_cases h : c = '*'
  · subst h
    rw [x12Step_self, x12Step_other '*' stxChar sohChar (by decide),
        x12Step_self, x12Step_other stxChar '~' '*' (by decide)]
  · rw [x12Step_other '*' sohChar c h, x12Step_other '*' stxChar c h,
        x12Step_other sohChar '*' c h1, x12Step_other stxChar '~' c h2]

theorem x12Map_fix_star (e c : Char) (he : e ≠ sohChar) :
    x12Map '*' '*' (x12Map e e c) = x12Map e e c := by
  rcases x12Map_ee_values e c he with h | h | ⟨h, hc1, hc2⟩
  · rw [h]
    exact x12Map_star_star_fixed '*' (by decide) (by decide)
  · rw [h]
    exact x12Map_star_star_fixed '~' (by decide) (by decide)
  · rw [h]
    exact x12Map_star_star_fixed c hc1 hc2
theorem edifactNoop_of_unaHeader (rest : List Char) :
    edifactNoop (unaHeader ++ rest) = true := rfl

theorem normalizeEdifact_of_unaHeader (rest : List Char) :
    normalizeEdifactDelimiters (unaHeader ++ rest) = unaHeader ++ rest := rfl

theorem normalizeEdifact_output (u : List Char)
    (henv : listStartsWith (str "UNA") u = true ∨ listStartsWith (str "UNB") u = true) :
    (normalizeEdifactDelimiters u = u ∧ edifactNoop u = true)
  ∨ ∃ rest, normalizeEdifactDelimiters u = unaHeader ++ rest := by
  have hsome : ∃ q, edifactDelimsOf u = some q := by
    unfold edifactDelimsOf
    by_cases h1 : listStartsWith (str "UNA") u = true
    · rw [if_pos h1]
      exact ⟨_, rfl⟩
    · rcases henv with h | h
      · exact absurd h h1
      · rw [if_neg h1, if_pos h]
        exact ⟨_, rfl⟩
  obtain ⟨⟨cd, ed, rc, sd⟩, hdel⟩ := hsome
  unfold normalizeEdifactDelimiters
  rw [hdel]
  dsimp only
  by_cases hcond : cd = some ':' ∧ ed = some '+' ∧ sd = some aposChar ∧ rc = some '?'
  · rw [if_pos hcond]
    left
    refine ⟨rfl, ?_⟩
    unfold edifactNoop
    rw [hdel]
    simp [hcond.1, hcond.2.1, hcond.2.2.1, hcond.2.2.2]
  · rw [if_neg hcond]
    right
    by_cases huna : listStartsWith (str "UNA") u = true
    · rw [if_pos huna]
      exact ⟨_, rfl⟩
    · rw [if_neg huna]
      exact ⟨_, rfl⟩
theorem normalizeDelimiters_no_env (t : List Char) (h : hasEnvelope t = false) :
    normalizeDelimiters t = t := by
  unfold normalizeDelimiters
  rw [if_pos (by simp [h])]

attribute [irreducible] x12Map

theorem charAt_some_of_lt (t : List Char) (n : Nat) (h : n < t.length) :
    ∃ c, charAt t n = some c :=
  ⟨t.get ⟨n, h⟩, by simp [charAt, List.get?_eq_get h]⟩

/-- Claim C7 as amended: for an X12 document with a recognized envelope,
more than 105 characters, and a character at offset 105 different from
the U+0001 sentinel, a second application of `normalizeDelimiters`
leaves the text unchanged, and it takes the already-normalized
short-circuit branch whenever the two delimiter characters read at
offsets 103 and 105 are distinct; a second application of
`normalizeEdifactDelimiters` on any document opening with UNA or UNB
always takes the short-circuit branch and changes nothing. -/
theorem normalizeDelimiters_idempotent_amended (t u : List Char) :
    (hasEnvelope t = true → 105 < t.length → charAt t 105 ≠ some sohChar →
      (normalizeDelimiters (normalizeDelimiters t) = normalizeDelimiters t
       ∧ (charAt t 103 ≠ charAt t 105 → noopX12 (normalizeDelimiters t) = true)))
  ∧ ((listStartsWith (str "UNA") u = true ∨ listStartsWith (str "UNB") u = true) →
      (normalizeEdifactDelimiters (normalizeEdifactDelimiters u) = normalizeEdifactDelimiters u
       ∧ edifactNoop (normalizeEdifactDelimiters u) = true)) := by
  constructor
  · intro henv hlen hsoh
    obtain ⟨e, he⟩ := charAt_some_of_lt t 103 (by omega)
    obtain ⟨s, hs⟩ := charAt_some_of_lt t 105 (by omega)
    have hs_ne : s ≠ sohChar := by
      intro h
      exact hsoh (by rw [hs, h])
    by_cases hnoop : e = '*' ∧ s = '~'
    · have h0 : normalizeDelimiters t = t :=
        normalizeDelimiters_noop_eq t (by rw [normalizeDelimitersElemDelim, he, hnoop.1])
          (by rw [normalizeDelimitersSegDelim, hs, hnoop.2])
      constructor
      · rw [h0]
        exact h0
      · intro _
        rw [h0]
        simp [noopX12, normalizeDelimitersElemDelim, normalizeDelimitersSegDelim,
              he, hs, hnoop.1, hnoop.2]
    · have hpipe : normalizeDelimiters t = t.map (x12Map e s) :=
        normalizeDelimiters_pipeline t e s henv
          (by rw [normalizeDelimitersElemDelim, he]) (by rw [normalizeDelimitersSegDelim, hs]) hnoop
      have h103 : charAt (t.map (x12Map e s)) 103 = some (x12Map e s e) := by
        rw [charAt_map, he]
        rfl
      have h105 : charAt (t.map (x12Map e s)) 105 = some (x12Map e s s) := by
        rw [charAt_map, hs]
        rfl
      by_cases hes : s = e
      · subst hes
        have hval : x12Map s s s = '*' := x12Map_elem s s hs_ne
        constructor
        · rw [hpipe]
          cases henv2 : hasEnvelope (t.map (x12Map s s)) with
          | false => exact normalizeDelimiters_no_env _ henv2
          | true =>
            have h103s : normalizeDelimitersElemDelim (t.map (x12Map s s)) = some '*' := by
              rw [normalizeDelimitersElemDelim, h103, hval]
            have h105s : normalizeDelimitersSegDelim (t.map (x12Map s s)) = some '*' := by
              rw [normalizeDelimitersSegDelim, h105, hval]
            have hpipe2 := normalizeDelimiters_pipeline (t.map (x12Map s s)) '*' '*' henv2
              h103s h105s (by simp)
            rw [hpipe2, List.map_map]
            apply List.map_congr_left
            intro c _
            show x12Map '*' '*' (x12Map s s c) = x12Map s s c
            exact x12Map_fix_star s c hs_ne
        · intro hne
          exact absurd (he.trans hs.symm) hne
      · have h103s : normalizeDelimitersElemDelim (t.map (x12Map e s)) = some '*' := by
          rw [normalizeDelimitersElemDelim, h103, x12Map_elem e s hs_ne]
        have h105s : normalizeDelimitersSegDelim (t.map (x12Map e s)) = some '~' := by
          rw [normalizeDelimitersSegDelim, h105, x12Map_seg e s hes]
        constructor
        · rw [hpipe]
          exact normalizeDelimiters_noop_eq (t.map (x12Map e s)) h103s h105s
        · intro _
          rw [hpipe]
          simp [noopX12, h103s, h105s]
  · intro henv
    rcases normalizeEdifact_output u henv with ⟨hId, hNoop⟩ | ⟨rest, hOut⟩
    · constructor
      · rw [hId]
        exact hId
      · rw [hId]
        exact hNoop
    · constructor
      · rw [hOut]
        exact normalizeEdifact_of_unaHeader rest
      · rw [hOut]
        exact edifactNoop_of_unaHeader rest
/-- Counterexample for claim C7: an ISA document whose characters at
offsets 103 and 105 are both the asterisk.  The first application takes
the replacement branch, the text comes out unchanged, and the second
application again fails the already-normalized short-circuit test
(offset 105 still does not hold a tilde), so the second run does not
take the no-op branch as the claim asserts. -/
theorem normalizeDelimiters_second_pass_cex :
    hasEnvelope (str "ISA" ++ List.replicate 100 'A' ++ '*' :: 'A' :: ['*']) = true
  ∧ normalizeDelimiters (str "ISA" ++ List.replicate 100 'A' ++ '*' :: 'A' :: ['*'])
      = str "ISA" ++ List.replicate 100 'A' ++ '*' :: 'A' :: ['*']
  ∧ noopX12 (normalizeDelimiters (str "ISA" ++ List.replicate 100 'A' ++ '*' :: 'A' :: ['*'])) = false := by
  decide

/-- Witness for the amended claim C7 on an ISA document with pipe and
percent delimiters and on a UNB document with nonstandard delimiters. -/
theorem normalizeDelimiters_idempotent_amended_witness :
    (normalizeDelimiters (normalizeDelimiters
        (str "ISA" ++ '|' :: List.replicate 99 'A' ++ '|' :: 'A' :: ['%']))
      = normalizeDelimiters (str "ISA" ++ '|' :: List.replicate 99 'A' ++ '|' :: 'A' :: ['%'])
     ∧ noopX12 (normalizeDelimiters (str "ISA" ++ '|' :: List.replicate 99 'A' ++ '|' :: 'A' :: ['%'])) = true)
  ∧ (normalizeEdifactDelimiters (normalizeEdifactDelimiters (str "UNB-UNOA;2-X" ++ ['\n']))
      = normalizeEdifactDelimiters (str "UNB-UNOA;2-X" ++ ['\n'])
     ∧ edifactNoop (normalizeEdifactDelimiters (str "UNB-UNOA;2-X" ++ ['\n'])) = true) := by
  have h := normalizeDelimiters_idempotent_amended
    (str "ISA" ++ '|' :: List.replicate 99 'A' ++ '|' :: 'A' :: ['%'])
    (str "UNB-UNOA;2-X" ++ ['\n'])
  refine ⟨?_, h.2 (Or.inr (by decide))⟩
  have h1 := h.1 (by decide) (by decide) (by decide)
  exact ⟨h1.1, h1.2 (by decide)⟩

end EdiTools
